import Mathlib

/-!
Shallow embedding of the debug-session state-synchronization engine of
`crates/debugger_ui/src/debugger_panel.rs`: the thread-state store, the
recursive variable-tree fetch, and the event handlers for Stopped,
Continued, Thread, Terminated and the reverse startDebugging request.
Adapter requests are modelled as pure response functions (`none` = the
request failed); the unbounded recursive fetch receives explicit fuel.
-/

namespace ZedDebugger

/-- Thread status, as `dap::client::ThreadStatus`. -/
inductive ThreadStatus
  | Running
  | Stopped
  | Exited
  | Ended
  deriving DecidableEq

/-- A variable returned by the adapter (`dap::Variable`): name, value, and a
reference to its children (`0` means not expandable). -/
structure Variable where
  name : String
  value : String
  variables_reference : Nat
  deriving DecidableEq

/-- Source attached to a stack frame (`dap::Source`); the path is optional. -/
structure Source where
  path : Option String
  deriving DecidableEq

/-- One stack frame (`dap::StackFrame`): id, optional source, 1-based line and column. -/
structure StackFrame where
  id : Nat
  source : Option Source
  line : Nat
  column : Nat
  deriving DecidableEq

/-- A scope grouping variables of one frame (`dap::Scope`). -/
structure Scope where
  name : String
  variables_reference : Nat
  deriving DecidableEq

/-- First-match lookup in an association list (the map `get`). -/
def assocGet {α β : Type} [DecidableEq α] (k : α) : List (α × β) → Option β
  | [] => none
  | (k', v) :: rest => if k' = k then some v else assocGet k rest

/-- Insert into an association list, replacing an existing binding of the key
(the map `insert`). -/
def assocInsert {α β : Type} [DecidableEq α] (k : α) (v : β) : List (α × β) → List (α × β)
  | [] => [(k, v)]
  | (k', v') :: rest => if k' = k then (k, v) :: rest else (k', v') :: assocInsert k v rest

/-- Flattened variable data of one thread: frame id ↦ scope ↦ `(depth, variable)`
entries, as the `variables` field of `dap::client::ThreadState`. -/
abbrev VariableIndex := List (Nat × List (Scope × List (Nat × Variable)))

/-- Cached state of one thread (`dap::client::ThreadState`). `vars` embeds the source
field `variables`, renamed because `variables` is a reserved word in Lean. -/
structure ThreadState where
  status : ThreadStatus
  stack_frames : List StackFrame
  current_stack_frame_id : Nat
  vars : VariableIndex
  deriving DecidableEq

/-- The per-client thread-state map (`thread_states` in `dap::client`). -/
abbrev ThreadStates := List (Nat × ThreadState)

/-- Modelled from the spec: `ThreadState::default()` is defined in the `dap` crate,
which is not under `src/`. Per §3 and §4.4 of the spec, a freshly created entry has
default (Running) status and no cached frames or variables. -/
def ThreadState.default : ThreadState :=
  { status := .Running, stack_frames := [], current_stack_frame_id := 0, vars := [] }

/-- Modelled from the spec: `DebugAdapterClient::update_thread_state_status` is defined
in the `dap` crate, which is not under `src/`. Per the spec (§8), a status update
applies only to an already existing entry for that thread id and never creates one. -/
def updateThreadStateStatus (tid : Nat) (st : ThreadStatus) (states : ThreadStates) :
    ThreadStates :=
  states.map (fun p => if p.1 = tid then (p.1, { p.2 with status := st }) else p)

/-- Pure model of the adapter connection: each request kind is a response function,
`none` meaning the request failed. `stackTrace` is keyed by thread id, `scopes` by
frame id, and `varsRequest` — the `variables` request, renamed because `variables` is a
reserved word in Lean — by variables reference. -/
structure Adapter where
  stackTrace : Nat → Option (List StackFrame)
  scopes : Nat → Option (List Scope)
  varsRequest : Nat → Option (List Variable)

/-- Failure of a variables fetch: the underlying request failed, or the recursion did
not finish within the given fuel (the source recursion is unbounded). -/
inductive FetchErr
  | requestFailed
  | outOfFuel
  deriving DecidableEq

/-- One task of the fan-out of `DebugPanel::fetch_variables`: when the variable's
reference is nonzero, its subtree is fetched through `f` at `depth + 1`; otherwise the
subtree is empty. -/
def expandChild (f : Nat → Nat → Except FetchErr (List (Nat × Variable))) (depth : Nat)
    (v : Variable) : Except FetchErr (List (Nat × Variable)) :=
  if 0 < v.variables_reference then f v.variables_reference (depth + 1) else .ok []

/-- The fan-out step of `DebugPanel::fetch_variables`: each variable of the response, in
response order, becomes a `(depth, variable)` tuple immediately followed by its subtree
(`expandChild`); the per-variable results are joined in order, and any branch failure
fails the whole step (`try_join_all`). -/
def expandWith (f : Nat → Nat → Except FetchErr (List (Nat × Variable))) (depth : Nat) :
    List Variable → Except FetchErr (List (Nat × Variable))
  | [] => .ok []
  | v :: rest =>
    match expandChild f depth v with
    | .error e => .error e
    | .ok sub =>
      match expandWith f depth rest with
      | .error e => .error e
      | .ok restEntries => .ok ((depth, v) :: (sub ++ restEntries))

/-- `DebugPanel::fetch_variables`: one `variables` request for the reference, then the
recursive concurrent expansion of every returned variable. `fuel` bounds the recursion
depth, which the source leaves unbounded. -/
def fetchVariables (a : Adapter) : Nat → Nat → Nat → Except FetchErr (List (Nat × Variable))
  | 0, _, _ => .error .outOfFuel
  | fuel + 1, ref, depth =>
    match a.varsRequest ref with
    | none => .error .requestFailed
    | some vs => expandWith (fetchVariables a fuel) depth vs

/-- The `scope_tasks` stage of `handle_stopped_event`: one `scopes` request per returned
stack frame, keyed by the frame id; results are joined in order and any failure fails
the whole stage (`try_join_all` with `?` inside each task). -/
def collectFrameScopes (a : Adapter) : List StackFrame → Option (List (Nat × List Scope))
  | [] => some []
  | f :: rest => do
    let scs ← a.scopes f.id
    let r ← collectFrameScopes a rest
    pure ((f.id, scs) :: r)

/-- The `variable_tasks` stage for one frame: `fetch_variables(scope.variables_reference, 1)`
for each scope, joined in order, any failure failing the stage. -/
def collectScopeVars (a : Adapter) (fuel : Nat) :
    List Scope → Except FetchErr (List (Scope × List (Nat × Variable)))
  | [] => .ok []
  | s :: rest => do
    let entries ← fetchVariables a fuel s.variables_reference 1
    let r ← collectScopeVars a fuel rest
    .ok ((s, entries) :: r)

/-- The `stack_frame_tasks` stage of `handle_stopped_event`: for every frame and its
scopes, fetch every scope's variable tree; joined in order, failure fails the stage. -/
def collectFrameVars (a : Adapter) (fuel : Nat) :
    List (Nat × List Scope) → Except FetchErr (List (Nat × List (Scope × List (Nat × Variable))))
  | [] => .ok []
  | fs :: rest => do
    let svs ← collectScopeVars a fuel fs.2
    let r ← collectFrameVars a fuel rest
    .ok ((fs.1, svs) :: r)

/-- The loop of `handle_stopped_event` that assembles `thread_state.variables`:
`entry(stack_frame_id).or_insert_with(default)` then `insert(scope, variables)` per
scope. -/
def buildVariables (scopedVars : List (Nat × List (Scope × List (Nat × Variable)))) :
    VariableIndex :=
  scopedVars.foldl
    (fun m p =>
      let fm := (assocGet p.1 m).getD []
      assocInsert p.1 (p.2.foldl (fun fm sv => assocInsert sv.1 sv.2 fm) fm) m)
    []

/-- A Stopped event (`dap::StoppedEvent`); only the optional thread id drives the
handler. -/
structure StoppedEvent where
  thread_id : Option Nat
  deriving DecidableEq

/-- Outcome of the spawned task of `handle_stopped_event`: early return without any
request when the event has no thread id (`noop`), the new thread-state map on success,
a logged error (`err`, from `detach_and_log_err`) when any request fails, or a panic of
the task (`panicked`, the `first().unwrap()` on an empty stack-trace response). -/
inductive StopResult
  | noop
  | ok (states : ThreadStates)
  | err
  | panicked
  deriving DecidableEq

/-- `DebugPanel::handle_stopped_event`: request the stack trace, take the first frame as
current (`unwrap`), request scopes for every frame, fetch every scope's variable tree,
then assemble the new `ThreadState` (status Stopped) and insert it into the thread-state
map. Every stage is joined before the single insert. -/
def handleStoppedEvent (a : Adapter) (fuel : Nat) (states : ThreadStates)
    (event : StoppedEvent) : StopResult :=
  match event.thread_id with
  | none => .noop
  | some thread_id =>
    match a.stackTrace thread_id with
    | none => .err
    | some stack_frames =>
      match stack_frames with
      | [] => .panicked
      | current :: _ =>
        match collectFrameScopes a stack_frames with
        | none => .err
        | some frameScopes =>
          match collectFrameVars a fuel frameScopes with
          | .error _ => .err
          | .ok scopedVars =>
            let thread_state : ThreadState :=
              { status := .Stopped,
                stack_frames := stack_frames,
                current_stack_frame_id := current.id,
                vars := buildVariables scopedVars }
            .ok (assocInsert thread_id thread_state states)

/-- Thread-state map observed after the handler's task finishes: the map is only touched
by the single insert of the success branch; every other outcome leaves it as it was. -/
def stopResultStates (r : StopResult) (old : ThreadStates) : ThreadStates :=
  match r with
  | .ok states => states
  | _ => old

/-- A Continued event (`dap::ContinuedEvent`). -/
structure ContinuedEvent where
  thread_id : Nat
  all_threads_continued : Option Bool
  deriving DecidableEq

/-- `DebugPanel::handle_continued_event`: if `all_threads_continued.unwrap_or(false)`,
set every existing thread's status to Running in one pass; otherwise update only the
named thread's status. -/
def handleContinuedEvent (event : ContinuedEvent) (states : ThreadStates) : ThreadStates :=
  let all_threads := event.all_threads_continued.getD false
  if all_threads then
    states.map (fun p => (p.1, { p.2 with status := .Running }))
  else
    updateThreadStateStatus event.thread_id .Running states

/-- Reason of a Thread event (`dap::ThreadEventReason`). -/
inductive ThreadEventReason
  | Started
  | Exited
  deriving DecidableEq

/-- A Thread event (`dap::ThreadEvent`). -/
structure ThreadEvent where
  thread_id : Nat
  reason : ThreadEventReason
  deriving DecidableEq

/-- `DebugPanel::handle_thread_event`: reason Started inserts a default `ThreadState`
for the thread id; any other reason updates the thread's status to Ended and then
clears highlights for every stack frame stored for that thread
(`remove_highlights_for_thread` reads the thread's entry and issues one clear per
frame). The second component lists the frames whose highlights are cleared. -/
def handleThreadEvent (event : ThreadEvent) (states : ThreadStates) :
    ThreadStates × List StackFrame :=
  if event.reason = ThreadEventReason.Started then
    (assocInsert event.thread_id ThreadState.default states, [])
  else
    let states' := updateThreadStateStatus event.thread_id .Ended states
    (states', ((assocGet event.thread_id states').map ThreadState.stack_frames).getD [])

/-- JSON values (`serde_json::Value`); objects keep field order as association lists. -/
inductive Json
  | null
  | bool (b : Bool)
  | num (n : Int)
  | str (s : String)
  | arr (elems : List Json)
  | obj (fields : List (String × Json))

mutual

/-- Modelled from the spec: `util::merge_json_value_into(source, target)` is not under
`src/`. Per the spec (§4.4), the source value wins on key conflict and nested objects
are deep-merged; a non-object source (or non-object target) replaces the target. -/
def mergeJsonValueInto : Json → Json → Json
  | .obj source, .obj target => .obj (mergeJsonFields source target)
  | source, _ => source

/-- Field-by-field merge of a source object into a target object: an existing key is
merged recursively, a new key is appended. -/
def mergeJsonFields : List (String × Json) → List (String × Json) → List (String × Json)
  | [], target => target
  | (k, v) :: rest, target =>
    match assocGet k target with
    | some old => mergeJsonFields rest (assocInsert k (mergeJsonValueInto v old) target)
    | none => mergeJsonFields rest (target ++ [(k, v)])

end

/-- Kind of the configured request (`task::DebugRequestType`). -/
inductive DebugRequestType
  | Launch
  | Attach
  deriving DecidableEq

/-- A Terminated event (`dap::TerminatedEvent`): optional restart arguments. -/
structure TerminatedEvent where
  restart : Option Json

/-- Requests/commands issued by the lifecycle handlers, in issue order. -/
inductive DapAction
  | clearAllHighlights
  | disconnect (restart : Option Bool)
  | launch (args : Option Json)
  | attach (args : Option Json)
  | teardown

/-- `DebugPanel::handle_terminated_event` as its issued action sequence. Highlights for
the whole session are removed first (`remove_highlights … .await?`); `clearOk` is that
await's success. With restart arguments present, `disconnect(Some(true), None, None)` is
issued and, when it succeeds (`disconnectOk`), `launch`/`attach` with the restart
arguments follows, by the client's request type; without restart arguments the handler
asks the project to stop the debug adapter client (`teardown`). -/
def handleTerminatedEvent (clearOk disconnectOk : Bool) (requestType : DebugRequestType)
    (event : Option TerminatedEvent) : List DapAction :=
  let restart_args := event.bind TerminatedEvent.restart
  DapAction.clearAllHighlights ::
    (if clearOk then
      match restart_args with
      | some _ =>
        DapAction.disconnect (some true) ::
          (if disconnectOk then
            match requestType with
            | .Launch => [DapAction.launch restart_args]
            | .Attach => [DapAction.attach restart_args]
          else [])
      | none => [DapAction.teardown]
    else [])

/-- Configuration stored for a client (`client.config()`): the request kind and the
stored launch/attach argument object (`request_args.map(|a| a.args)`). -/
structure AdapterConfig where
  request : DebugRequestType
  request_args : Option Json

/-- The client data `handle_start_debugging_request` reads: configuration plus the
parent's command, args and working directory. -/
structure ClientModel where
  command : String
  args : List String
  cwd : String
  config : AdapterConfig

/-- Arguments of the reverse startDebugging request
(`dap::StartDebuggingRequestArguments`). -/
structure StartDebuggingRequestArguments where
  configuration : Json

/-- The `start_debug_adapter_client` call issued for the child session: the parent's
command, args and working directory plus the merged configuration passed as
`Some(json)`. -/
structure StartSessionCall where
  command : String
  args : List String
  cwd : String
  mergedArgs : Json

/-- `DebugPanel::handle_start_debugging_request`: start from `json!({})`, merge the
parent's stored request arguments into it when present, then merge the request's
`configuration` over it, and start the child session with the parent's command, args
and working directory. -/
def handleStartDebuggingRequest (client : ClientModel)
    (request : StartDebuggingRequestArguments) : StartSessionCall :=
  let base : Json := .obj []
  let base :=
    match client.config.request_args with
    | some args => mergeJsonValueInto args base
    | none => base
  { command := client.command,
    args := client.args,
    cwd := client.cwd,
    mergedArgs := mergeJsonValueInto request.configuration base }

/-- Outcome of one highlight navigation or removal for a frame: `panicked` models the
`unwrap()` on a missing source or source path; otherwise the resolved path (and the
0-based row/column computed with saturating subtraction for navigation). -/
inductive HighlightStep
  | panicked
  | resolved (path : String) (row : Nat) (column : Nat)
  deriving DecidableEq

/-- The source-resolution prefix of `DebugPanel::go_to_stack_frame`:
`stack_frame.source.unwrap().path.unwrap()` and the 0-based row/column
(`saturating_sub(1)`). -/
def goToStackFrame (frame : StackFrame) : HighlightStep :=
  match frame.source with
  | none => .panicked
  | some src =>
    match src.path with
    | none => .panicked
    | some path => .resolved path (frame.line - 1) (frame.column - 1)

/-- The source-resolution prefix of `DebugPanel::remove_editor_highlight`:
`stack_frame.source.unwrap().path.unwrap()`. -/
def removeEditorHighlight (frame : StackFrame) : HighlightStep :=
  match frame.source with
  | none => .panicked
  | some src =>
    match src.path with
    | none => .panicked
    | some path => .resolved path 0 0

@[simp]
theorem assocGet_nil {α β : Type} [DecidableEq α] (k : α) :
    assocGet k ([] : List (α × β)) = none := rfl

@[simp]
theorem assocGet_cons {α β : Type} [DecidableEq α] (k k' : α) (v : β) (l : List (α × β)) :
    assocGet k ((k', v) :: l) = if k' = k then some v else assocGet k l := rfl

@[simp]
theorem assocInsert_nil {α β : Type} [DecidableEq α] (k : α) (v : β) :
    assocInsert k v ([] : List (α × β)) = [(k, v)] := rfl

@[simp]
theorem assocInsert_cons {α β : Type} [DecidableEq α] (k k' : α) (v v' : β)
    (l : List (α × β)) :
    assocInsert k v ((k', v') :: l) =
      if k' = k then (k, v) :: l else (k', v') :: assocInsert k v l := rfl

theorem assocGet_insert_self {α β : Type} [DecidableEq α] (k : α) (v : β)
    (m : List (α × β)) : assocGet k (assocInsert k v m) = some v := by
  induction m with
  | nil => simp
  | cons p rest ih =>
    obtain ⟨k', v'⟩ := p
    by_cases h : k' = k <;> simp [h, ih]

theorem assocGet_insert_ne {α β : Type} [DecidableEq α] {k k' : α} (hne : k' ≠ k)
    (v : β) (m : List (α × β)) : assocGet k (assocInsert k' v m) = assocGet k m := by
  induction m with
  | nil => simp [hne]
  | cons p rest ih =>
    obtain ⟨k'', v''⟩ := p
    by_cases h1 : k'' = k' <;> by_cases h2 : k'' = k <;>
      simp_all [h1, h2]

theorem assocGet_append {α β : Type} [DecidableEq α] (k : α) (l1 l2 : List (α × β)) :
    assocGet k (l1 ++ l2) =
      match assocGet k l1 with
      | some v => some v
      | none => assocGet k l2 := by
  induction l1 with
  | nil => simp
  | cons p rest ih =>
    obtain ⟨k', v'⟩ := p
    by_cases h : k' = k <;> simp [h, ih]

theorem assocGet_eq_none_of_not_mem {α β : Type} [DecidableEq α] {k : α}
    {l : List (α × β)} (h : k ∉ l.map Prod.fst) : assocGet k l = none := by
  induction l with
  | nil => simp
  | cons p rest ih =>
    obtain ⟨k', v'⟩ := p
    simp only [List.map_cons, List.mem_cons] at h
    push_neg at h
    obtain ⟨h1, h2⟩ := h
    have hne : ¬ k' = k := fun hh => h1 hh.symm
    simp [hne, ih h2]

theorem assocGet_updateThreadStateStatus (tid tid' : Nat) (st : ThreadStatus)
    (states : ThreadStates) :
    assocGet tid (updateThreadStateStatus tid' st states) =
      if tid' = tid then (assocGet tid states).map (fun ts => { ts with status := st })
      else assocGet tid states := by
  induction states with
  | nil => by_cases h : tid' = tid <;> simp [updateThreadStateStatus, h]
  | cons p rest ih =>
    obtain ⟨k, ts⟩ := p
    simp only [updateThreadStateStatus, List.map_cons] at ih ⊢
    by_cases h1 : k = tid' <;> by_cases h2 : tid' = tid <;>
      simp_all [h1, h2]

theorem updateThreadStateStatus_of_absent {tid : Nat} {states : ThreadStates}
    (h : assocGet tid states = none) (st : ThreadStatus) :
    updateThreadStateStatus tid st states = states := by
  induction states with
  | nil => rfl
  | cons p rest ih =>
    obtain ⟨k, ts⟩ := p
    by_cases hk : k = tid
    · simp [hk] at h
    · simp only [assocGet_cons, if_neg hk] at h
      simp [updateThreadStateStatus, hk] at ih ⊢
      exact ih h

theorem assocGet_setAllRunning (tid : Nat) (states : ThreadStates) :
    assocGet tid
        (states.map (fun p => (p.1, { p.2 with status := ThreadStatus.Running }))) =
      (assocGet tid states).map (fun ts => { ts with status := ThreadStatus.Running }) := by
  induction states with
  | nil => simp
  | cons p rest ih =>
    obtain ⟨k, ts⟩ := p
    by_cases h : k = tid <;> simp [h, ih]

/-- C8: a Continued event with `all_threads_continued = true` sets every existing
thread's status to Running and touches no other entry (absent threads stay absent);
with `false` or absent, only the thread named by the event's thread id changes, and it
becomes Running when present. -/
theorem continued_event_thread_statuses (e : ContinuedEvent) (states : ThreadStates) :
    (e.all_threads_continued = some true →
      (∀ tid ts, assocGet tid states = some ts →
        assocGet tid (handleContinuedEvent e states) =
          some { ts with status := ThreadStatus.Running }) ∧
      (∀ tid, assocGet tid states = none →
        assocGet tid (handleContinuedEvent e states) = none)) ∧
    (e.all_threads_continued ≠ some true →
      (∀ tid, tid ≠ e.thread_id →
        assocGet tid (handleContinuedEvent e states) = assocGet tid states) ∧
      assocGet e.thread_id (handleContinuedEvent e states) =
        (assocGet e.thread_id states).map
          (fun ts => { ts with status := ThreadStatus.Running })) := by
  constructor
  · intro hall
    have hcond : e.all_threads_continued.getD false = true := by rw [hall]; rfl
    constructor
    · intro tid ts hts
      simp [handleContinuedEvent, hcond, assocGet_setAllRunning, hts]
    · intro tid hnone
      simp [handleContinuedEvent, hcond, assocGet_setAllRunning, hnone]
  · intro hnall
    have hcond : e.all_threads_continued.getD false = false := by
      cases h : e.all_threads_continued with
      | none => rfl
      | some b =>
        cases b with
        | false => rfl
        | true => exact absurd h hnall
    constructor
    · intro tid hne
      have hns : e.thread_id ≠ tid := fun hh => hne hh.symm
      simp [handleContinuedEvent, hcond, assocGet_updateThreadStateStatus, hns]
    · simp [handleContinuedEvent, hcond, assocGet_updateThreadStateStatus]

/-- Witness for C8 at a concrete two-thread map: with `all_threads_continued = some
true` thread 2 becomes Running; with it absent, thread 2 keeps its Stopped status. -/
theorem continued_event_thread_statuses_witness :
    assocGet 2 (handleContinuedEvent ⟨1, some true⟩
        [(1, ⟨.Stopped, [], 0, []⟩), (2, ⟨.Stopped, [], 0, []⟩)]) =
      some ⟨.Running, [], 0, []⟩ ∧
    assocGet 2 (handleContinuedEvent ⟨1, none⟩
        [(1, ⟨.Stopped, [], 0, []⟩), (2, ⟨.Stopped, [], 0, []⟩)]) =
      some ⟨.Stopped, [], 0, []⟩ := by
  refine ⟨((continued_event_thread_statuses ⟨1, some true⟩ _).1 rfl).1 2 ⟨.Stopped, [], 0, []⟩ (by decide), ?_⟩
  have h := ((continued_event_thread_statuses ⟨1, none⟩
    [(1, ⟨.Stopped, [], 0, []⟩), (2, ⟨.Stopped, [], 0, []⟩)]).2 (by simp)).1 2 (by decide)
  rw [h]
  decide

/-- C6: a Thread event whose reason is not Started never creates an entry for an
unknown thread id; for a known id it sets that thread's status to Ended, issues a
highlight clear for exactly the stack frames previously stored for the thread, and
leaves every other thread's entry unchanged. -/
theorem thread_event_non_started (e : ThreadEvent) (states : ThreadStates)
    (h : e.reason ≠ ThreadEventReason.Started) :
    (assocGet e.thread_id states = none →
      handleThreadEvent e states = (states, [])) ∧
    (∀ ts, assocGet e.thread_id states = some ts →
      assocGet e.thread_id (handleThreadEvent e states).1 =
        some { ts with status := ThreadStatus.Ended } ∧
      (handleThreadEvent e states).2 = ts.stack_frames ∧
      (∀ tid, tid ≠ e.thread_id →
        assocGet tid (handleThreadEvent e states).1 = assocGet tid states)) := by
  constructor
  · intro hnone
    simp [handleThreadEvent, h, updateThreadStateStatus_of_absent hnone, hnone]
  · intro ts hts
    have hget := assocGet_updateThreadStateStatus e.thread_id e.thread_id
      ThreadStatus.Ended states
    rw [if_pos rfl, hts] at hget
    refine ⟨?_, ?_, ?_⟩
    · simp [handleThreadEvent, h, hget]
    · simp [handleThreadEvent, h, hget]
    · intro tid hne
      have := assocGet_updateThreadStateStatus tid e.thread_id ThreadStatus.Ended states
      rw [if_neg (fun hh => hne hh.symm)] at this
      simp [handleThreadEvent, h, this]

/-- Witness for C6: with thread 5 stored with one frame and thread 3 also present, a
non-Started Thread event for thread 5 ends it, clears its single frame and keeps
thread 3 intact; for unknown thread 9 nothing changes. -/
theorem thread_event_non_started_witness :
    (handleThreadEvent ⟨9, .Exited⟩ [(3, ⟨.Running, [], 0, []⟩)] =
      ([(3, ⟨.Running, [], 0, []⟩)], [])) ∧
    assocGet 5 (handleThreadEvent ⟨5, .Exited⟩
        [(5, ⟨.Stopped, [⟨1, none, 1, 1⟩], 1, []⟩), (3, ⟨.Running, [], 0, []⟩)]).1 =
      some ⟨.Ended, [⟨1, none, 1, 1⟩], 1, []⟩ ∧
    (handleThreadEvent ⟨5, .Exited⟩
        [(5, ⟨.Stopped, [⟨1, none, 1, 1⟩], 1, []⟩), (3, ⟨.Running, [], 0, []⟩)]).2 =
      [⟨1, none, 1, 1⟩] ∧
    assocGet 3 (handleThreadEvent ⟨5, .Exited⟩
        [(5, ⟨.Stopped, [⟨1, none, 1, 1⟩], 1, []⟩), (3, ⟨.Running, [], 0, []⟩)]).1 =
      some ⟨.Running, [], 0, []⟩ := by
  refine ⟨(thread_event_non_started ⟨9, .Exited⟩ _ (by decide)).1 (by decide), ?_, ?_, ?_⟩
  · exact ((thread_event_non_started ⟨5, .Exited⟩ _ (by decide)).2
      ⟨.Stopped, [⟨1, none, 1, 1⟩], 1, []⟩ (by decide)).1
  · exact ((thread_event_non_started ⟨5, .Exited⟩ _ (by decide)).2
      ⟨.Stopped, [⟨1, none, 1, 1⟩], 1, []⟩ (by decide)).2.1
  · have := ((thread_event_non_started ⟨5, .Exited⟩
      [(5, ⟨.Stopped, [⟨1, none, 1, 1⟩], 1, []⟩), (3, ⟨.Running, [], 0, []⟩)] (by decide)).2
      ⟨.Stopped, [⟨1, none, 1, 1⟩], 1, []⟩ (by decide)).2.2 3 (by decide)
    rw [this]
    decide

/-- C10: a Thread event with reason Started inserts a fresh default `ThreadState`
unconditionally: afterwards the thread's entry is the default Running state with no
stack frames and no variables, even when a previous entry existed. -/
theorem thread_event_started_overwrites (e : ThreadEvent) (states : ThreadStates)
    (h : e.reason = ThreadEventReason.Started) :
    handleThreadEvent e states = (assocInsert e.thread_id ThreadState.default states, []) ∧
    assocGet e.thread_id (handleThreadEvent e states).1 = some ThreadState.default ∧
    ThreadState.default.status = ThreadStatus.Running ∧
    ThreadState.default.stack_frames = [] ∧
    ThreadState.default.vars = [] := by
  refine ⟨by simp [handleThreadEvent, h], ?_, rfl, rfl, rfl⟩
  simp [handleThreadEvent, h, assocGet_insert_self]

/-- Witness for C10: a Started event for thread 5, whose entry was Stopped with a
cached frame, overwrites that entry with the default Running state. -/
theorem thread_event_started_overwrites_witness :
    assocGet 5 (handleThreadEvent ⟨5, .Started⟩
        [(5, ⟨.Stopped, [⟨1, none, 1, 1⟩], 1, []⟩)]).1 = some ThreadState.default :=
  (thread_event_started_overwrites ⟨5, .Started⟩
    [(5, ⟨.Stopped, [⟨1, none, 1, 1⟩], 1, []⟩)] rfl).2.1

/-- C1: when the Stopped event carries a thread id, the stack-trace response has a
first frame, and every scopes and variables request succeeds, the handler installs —
by one insert replacing the thread's previous entry wholesale — a `ThreadState` whose
status is Stopped, whose `current_stack_frame_id` is the first frame's id, and whose
`stack_frames` is the full returned sequence. -/
theorem stopped_event_installs_thread_state (a : Adapter) (fuel : Nat)
    (states : ThreadStates) (e : StoppedEvent) (tid : Nat) (cur : StackFrame)
    (rest : List StackFrame) (frameScopes : List (Nat × List Scope))
    (scopedVars : List (Nat × List (Scope × List (Nat × Variable))))
    (hid : e.thread_id = some tid)
    (hst : a.stackTrace tid = some (cur :: rest))
    (hsc : collectFrameScopes a (cur :: rest) = some frameScopes)
    (hv : collectFrameVars a fuel frameScopes = .ok scopedVars) :
    ∃ ts : ThreadState,
      handleStoppedEvent a fuel states e = .ok (assocInsert tid ts states) ∧
      ts.status = ThreadStatus.Stopped ∧
      ts.current_stack_frame_id = cur.id ∧
      ts.stack_frames = cur :: rest ∧
      assocGet tid (assocInsert tid ts states) = some ts := by
  refine ⟨⟨.Stopped, cur :: rest, cur.id, buildVariables scopedVars⟩, ?_, rfl, rfl,
    rfl, assocGet_insert_self _ _ _⟩
  simp [handleStoppedEvent, hid, hst, hsc, hv]

/-- Witness for C1: a concrete Stopped scenario — thread 7, two frames, one Locals
scope on each frame, one flat variable — installs the expected Stopped state. -/
theorem stopped_event_installs_thread_state_witness :
    ∃ ts : ThreadState,
      handleStoppedEvent
          { stackTrace := fun t => if t = 7 then
              some [⟨1, none, 3, 1⟩, ⟨2, none, 9, 1⟩] else none,
            scopes := fun f => if f = 1 ∨ f = 2 then some [⟨"Locals", 10⟩] else none,
            varsRequest := fun r => if r = 10 then some [⟨"i", "0", 0⟩] else none }
          1 [] { thread_id := some 7 } =
        .ok (assocInsert 7 ts []) ∧
      ts.status = ThreadStatus.Stopped ∧
      ts.current_stack_frame_id = 1 ∧
      ts.stack_frames = [⟨1, none, 3, 1⟩, ⟨2, none, 9, 1⟩] ∧
      assocGet 7 (assocInsert 7 ts []) = some ts :=
  stopped_event_installs_thread_state _ 1 [] { thread_id := some 7 } 7
    ⟨1, none, 3, 1⟩ [⟨2, none, 9, 1⟩]
    [(1, [⟨"Locals", 10⟩]), (2, [⟨"Locals", 10⟩])]
    [(1, [(⟨"Locals", 10⟩, [(1, ⟨"i", "0", 0⟩)])]),
      (2, [(⟨"Locals", 10⟩, [(1, ⟨"i", "0", 0⟩)])])]
    rfl rfl rfl rfl

/-- C4: when the Stopped event carries a thread id and any of the stackTrace, scopes
or variables requests fails, the handler's task ends as a logged error and the
thread-state map is left exactly as it was — the insert happens only after every
request has succeeded. -/
theorem stopped_event_failure_leaves_state (a : Adapter) (fuel : Nat)
    (states : ThreadStates) (e : StoppedEvent) (tid : Nat)
    (hid : e.thread_id = some tid)
    (hfail : a.stackTrace tid = none ∨
      ∃ frames, a.stackTrace tid = some frames ∧ frames ≠ [] ∧
        (collectFrameScopes a frames = none ∨
          ∃ frameScopes err, collectFrameScopes a frames = some frameScopes ∧
            collectFrameVars a fuel frameScopes = .error err)) :
    handleStoppedEvent a fuel states e = .err ∧
    stopResultStates (handleStoppedEvent a fuel states e) states = states := by
  have hr : handleStoppedEvent a fuel states e = .err := by
    rcases hfail with hnone | ⟨frames, hst, hne, hrest⟩
    · simp [handleStoppedEvent, hid, hnone]
    · cases frames with
      | nil => exact absurd rfl hne
      | cons cur rest =>
        rcases hrest with hsc | ⟨frameScopes, err, hsc, hv⟩
        · simp [handleStoppedEvent, hid, hst, hsc]
        · simp [handleStoppedEvent, hid, hst, hsc, hv]
  exact ⟨hr, by simp [hr, stopResultStates]⟩

/-- Witness for C4: a concrete failing scenario — thread 7's stack trace succeeds but
the scopes request for frame 2 fails — ends as an error and leaves the one-entry map
untouched. -/
theorem stopped_event_failure_leaves_state_witness :
    handleStoppedEvent
        { stackTrace := fun t => if t = 7 then
            some [⟨1, none, 3, 1⟩, ⟨2, none, 9, 1⟩] else none,
          scopes := fun f => if f = 1 then some [⟨"Locals", 10⟩] else none,
          varsRequest := fun r => if r = 10 then some [⟨"i", "0", 0⟩] else none }
        1 [(7, ⟨.Running, [], 0, []⟩)] { thread_id := some 7 } = .err ∧
    stopResultStates
        (handleStoppedEvent
          { stackTrace := fun t => if t = 7 then
              some [⟨1, none, 3, 1⟩, ⟨2, none, 9, 1⟩] else none,
            scopes := fun f => if f = 1 then some [⟨"Locals", 10⟩] else none,
            varsRequest := fun r => if r = 10 then some [⟨"i", "0", 0⟩] else none }
          1 [(7, ⟨.Running, [], 0, []⟩)] { thread_id := some 7 })
        [(7, ⟨.Running, [], 0, []⟩)] =
      [(7, ⟨.Running, [], 0, []⟩)] :=
  stopped_event_failure_leaves_state _ 1 [(7, ⟨.Running, [], 0, []⟩)]
    { thread_id := some 7 } 7 rfl
    (Or.inr ⟨[⟨1, none, 3, 1⟩, ⟨2, none, 9, 1⟩], rfl, by simp, Or.inl rfl⟩)

/-- C5 evaluation: the code panics on benign adapter data instead of reporting an
error — a successful stackTrace response with an empty frame list makes
`handle_stopped_event` hit `first().unwrap()`, and a frame without a source (or
without a source path) makes `go_to_stack_frame` and `remove_editor_highlight` hit
`source.unwrap().path.unwrap()`. -/
theorem adapter_responses_reach_panics :
    handleStoppedEvent
        { stackTrace := fun _ => some [], scopes := fun _ => some [],
          varsRequest := fun _ => some [] }
        1 [] { thread_id := some 7 } = .panicked ∧
    goToStackFrame ⟨1, none, 1, 1⟩ = .panicked ∧
    removeEditorHighlight ⟨1, some ⟨none⟩, 1, 1⟩ = .panicked :=
  ⟨rfl, rfl, rfl⟩

theorem expandWith_cons_ok_inv
    {f : Nat → Nat → Except FetchErr (List (Nat × Variable))} {d : Nat} {v : Variable}
    {rest : List Variable} {L : List (Nat × Variable)}
    (h : expandWith f d (v :: rest) = .ok L) :
    ∃ sub restL, expandChild f d v = .ok sub ∧ expandWith f d rest = .ok restL ∧
      L = (d, v) :: (sub ++ restL) := by
  cases hsub : expandChild f d v with
  | error e => rw [expandWith, hsub] at h; cases h
  | ok sub =>
    cases hrest : expandWith f d rest with
    | error e => rw [expandWith, hsub, hrest] at h; cases h
    | ok restL =>
      rw [expandWith, hsub, hrest] at h
      injection h with h
      exact ⟨sub, restL, rfl, rfl, h.symm⟩

theorem expandWith_error_of_child
    {f : Nat → Nat → Except FetchErr (List (Nat × Variable))} {d : Nat} :
    ∀ {vs : List Variable} {v : Variable} {err : FetchErr}, v ∈ vs →
      expandChild f d v = .error err → ∃ e, expandWith f d vs = .error e := by
  intro vs
  induction vs with
  | nil => intro v err hmem; cases hmem
  | cons w rest ih =>
    intro v err hmem hchild
    rcases List.mem_cons.mp hmem with rfl | hmem'
    · exact ⟨err, by rw [expandWith, hchild]⟩
    · cases hw : expandChild f d w with
      | error e => exact ⟨e, by rw [expandWith, hw]⟩
      | ok sub =>
        obtain ⟨e, he⟩ := ih hmem' hchild
        exact ⟨e, by rw [expandWith, hw, he]⟩

theorem expandWith_depth_ge
    {f : Nat → Nat → Except FetchErr (List (Nat × Variable))}
    (hf : ∀ r d' L', f r d' = .ok L' → ∀ p ∈ L', d' ≤ p.1) (d : Nat) :
    ∀ (vs : List Variable) (L : List (Nat × Variable)),
      expandWith f d vs = .ok L → ∀ p ∈ L, d ≤ p.1 := by
  intro vs
  induction vs with
  | nil =>
    intro L h p hp
    rw [expandWith] at h
    injection h with h
    subst h
    cases hp
  | cons v rest ih =>
    intro L h p hp
    obtain ⟨sub, restL, hsub, hrest, rfl⟩ := expandWith_cons_ok_inv h
    rcases List.mem_cons.mp hp with rfl | hp'
    · exact Nat.le_refl d
    · rcases List.mem_append.mp hp' with hsubm | hrestm
      · unfold expandChild at hsub
        by_cases hv : 0 < v.variables_reference
        · rw [if_pos hv] at hsub
          exact Nat.le_of_succ_le (hf _ _ _ hsub p hsubm)
        · rw [if_neg hv] at hsub
          injection hsub with hsub
          subst hsub
          cases hsubm
      · exact ih restL hrest p hrestm

theorem fetchVariables_depth_ge (a : Adapter) :
    ∀ (fuel ref d : Nat) (L : List (Nat × Variable)),
      fetchVariables a fuel ref d = .ok L → ∀ p ∈ L, d ≤ p.1 := by
  intro fuel
  induction fuel with
  | zero => intro ref d L h; cases h
  | succ fuel ih =>
    intro ref d L h p hp
    rw [fetchVariables] at h
    cases hvr : a.varsRequest ref with
    | none => rw [hvr] at h; cases h
    | some vs =>
      rw [hvr] at h
      exact expandWith_depth_ge (fun r d' L' h' => ih r d' L' h') d vs L h p hp

theorem expandWith_filter_top
    {f : Nat → Nat → Except FetchErr (List (Nat × Variable))} {d : Nat}
    (hf : ∀ r L', f r (d + 1) = .ok L' → ∀ p ∈ L', d + 1 ≤ p.1) :
    ∀ (vs : List Variable) (L : List (Nat × Variable)),
      expandWith f d vs = .ok L →
      (L.filter (fun p => p.1 = d)).map Prod.snd = vs := by
  intro vs
  induction vs with
  | nil =>
    intro L h
    rw [expandWith] at h
    injection h with h
    subst h
    rfl
  | cons v rest ih =>
    intro L h
    obtain ⟨sub, restL, hsub, hrest, rfl⟩ := expandWith_cons_ok_inv h
    have hsubnil : sub.filter (fun p => p.1 = d) = [] := by
      rw [List.filter_eq_nil_iff]
      intro p hp
      unfold expandChild at hsub
      by_cases hv : 0 < v.variables_reference
      · rw [if_pos hv] at hsub
        have := hf _ _ hsub p hp
        simp only [decide_eq_true_eq]
        omega
      · rw [if_neg hv] at hsub
        injection hsub with hsub
        subst hsub
        cases hp
    simp [List.filter_cons, List.filter_append, hsubnil, ih restL hrest]

theorem expandWith_structure
    {f : Nat → Nat → Except FetchErr (List (Nat × Variable))} {d : Nat} :
    ∀ (vs : List Variable) (L : List (Nat × Variable)),
      expandWith f d vs = .ok L →
      ∃ subs : List (List (Nat × Variable)),
        subs.length = vs.length ∧
        L = (List.zipWith (fun v sub => (d, v) :: sub) vs subs).flatten ∧
        ∀ (i : Nat) (h1 : i < vs.length) (h2 : i < subs.length),
          expandChild f d (vs.get ⟨i, h1⟩) = .ok (subs.get ⟨i, h2⟩) := by
  intro vs
  induction vs with
  | nil =>
    intro L h
    rw [expandWith] at h
    injection h with h
    subst h
    exact ⟨[], rfl, rfl, fun i h1 => absurd h1 (by simp)⟩
  | cons v rest ih =>
    intro L h
    obtain ⟨sub, restL, hsub, hrest, rfl⟩ := expandWith_cons_ok_inv h
    obtain ⟨subs, hlen, hjoin, hidx⟩ := ih restL hrest
    refine ⟨sub :: subs, by simp [hlen], ?_, ?_⟩
    · simp [List.zipWith, List.flatten, hjoin]
    · intro i h1 h2
      cases i with
      | zero => exact hsub
      | succ i => exact hidx i (Nat.lt_of_succ_lt_succ h1) (Nat.lt_of_succ_lt_succ h2)

/-- C2: a successful `fetch_variables(ref, d)` returns its entries in depth-first
order: every entry's depth is at least `d`; the entries at depth exactly `d` are the
adapter's response variables in response order; and the whole list is, block by block,
each response variable's `(d, v)` tuple immediately followed by its recursively fetched
subtree — whose entries all have depth at least `d + 1` — before the next sibling's
tuple. -/
theorem fetch_variables_depth_first_order (a : Adapter) (fuel ref d : Nat)
    (vs : List Variable) (L : List (Nat × Variable))
    (hreq : a.varsRequest ref = some vs)
    (hok : fetchVariables a (fuel + 1) ref d = .ok L) :
    (∀ p ∈ L, d ≤ p.1) ∧
    (L.filter (fun p => p.1 = d)).map Prod.snd = vs ∧
    ∃ subs : List (List (Nat × Variable)),
      subs.length = vs.length ∧
      L = (List.zipWith (fun v sub => (d, v) :: sub) vs subs).flatten ∧
      ∀ (i : Nat) (h1 : i < vs.length) (h2 : i < subs.length),
        (0 < (vs.get ⟨i, h1⟩).variables_reference →
          fetchVariables a fuel (vs.get ⟨i, h1⟩).variables_reference (d + 1) =
            .ok (subs.get ⟨i, h2⟩) ∧
          ∀ p ∈ subs.get ⟨i, h2⟩, d + 1 ≤ p.1) ∧
        ((vs.get ⟨i, h1⟩).variables_reference = 0 → subs.get ⟨i, h2⟩ = []) := by
  rw [fetchVariables, hreq] at hok
  have hf : ∀ r d' L', fetchVariables a fuel r d' = .ok L' → ∀ p ∈ L', d' ≤ p.1 :=
    fun r d' L' h' => fetchVariables_depth_ge a fuel r d' L' h'
  refine ⟨expandWith_depth_ge hf d vs L hok,
    expandWith_filter_top (fun r L' h' => hf r (d + 1) L' h') vs L hok, ?_⟩
  obtain ⟨subs, hlen, hjoin, hidx⟩ := expandWith_structure vs L hok
  refine ⟨subs, hlen, hjoin, ?_⟩
  intro i h1 h2
  have hch := hidx i h1 h2
  unfold expandChild at hch
  constructor
  · intro hpos
    rw [if_pos hpos] at hch
    exact ⟨hch, fun p hp => hf _ _ _ hch p hp⟩
  · intro hzero
    rw [if_neg (by omega)] at hch
    injection hch with hch
    exact hch.symm

/-- Witness for C2 at a concrete two-variable response where the first variable has a
one-variable subtree. -/
theorem fetch_variables_depth_first_order_witness :
    (∀ p ∈ [(1, (⟨"a", "x", 2⟩ : Variable)), (2, ⟨"c", "z", 0⟩), (1, ⟨"b", "y", 0⟩)],
      1 ≤ p.1) ∧
    (([(1, (⟨"a", "x", 2⟩ : Variable)), (2, ⟨"c", "z", 0⟩),
        (1, ⟨"b", "y", 0⟩)].filter (fun p => p.1 = 1)).map Prod.snd =
      [⟨"a", "x", 2⟩, ⟨"b", "y", 0⟩]) ∧
    ∃ subs : List (List (Nat × Variable)),
      subs.length = ([(⟨"a", "x", 2⟩ : Variable), ⟨"b", "y", 0⟩] : List Variable).length ∧
      [(1, (⟨"a", "x", 2⟩ : Variable)), (2, ⟨"c", "z", 0⟩), (1, ⟨"b", "y", 0⟩)] =
        (List.zipWith (fun v sub => (1, v) :: sub)
          [⟨"a", "x", 2⟩, ⟨"b", "y", 0⟩] subs).flatten ∧
      ∀ (i : Nat) (h1 : i < ([(⟨"a", "x", 2⟩ : Variable), ⟨"b", "y", 0⟩] :
          List Variable).length) (h2 : i < subs.length),
        (0 < (([(⟨"a", "x", 2⟩ : Variable), ⟨"b", "y", 0⟩] :
            List Variable).get ⟨i, h1⟩).variables_reference →
          fetchVariables
              { stackTrace := fun _ => none, scopes := fun _ => none,
                varsRequest := fun r =>
                  if r = 1 then some [⟨"a", "x", 2⟩, ⟨"b", "y", 0⟩]
                  else if r = 2 then some [⟨"c", "z", 0⟩]
                  else none }
              2 (([(⟨"a", "x", 2⟩ : Variable), ⟨"b", "y", 0⟩] :
                List Variable).get ⟨i, h1⟩).variables_reference 2 =
            .ok (subs.get ⟨i, h2⟩) ∧
          ∀ p ∈ subs.get ⟨i, h2⟩, 2 ≤ p.1) ∧
        ((([(⟨"a", "x", 2⟩ : Variable), ⟨"b", "y", 0⟩] :
            List Variable).get ⟨i, h1⟩).variables_reference = 0 →
          subs.get ⟨i, h2⟩ = []) :=
  fetch_variables_depth_first_order
    { stackTrace := fun _ => none, scopes := fun _ => none,
      varsRequest := fun r =>
        if r = 1 then some [⟨"a", "x", 2⟩, ⟨"b", "y", 0⟩]
        else if r = 2 then some [⟨"c", "z", 0⟩]
        else none }
    2 1 1 [⟨"a", "x", 2⟩, ⟨"b", "y", 0⟩]
    [(1, ⟨"a", "x", 2⟩), (2, ⟨"c", "z", 0⟩), (1, ⟨"b", "y", 0⟩)] rfl rfl

/-- C3: a fetch whose initial variables request fails returns an error, and a fetch
any of whose child subtree fetches fails returns an error as well — in both cases no
list of variables is returned at all. -/
theorem fetch_variables_all_or_nothing (a : Adapter) (fuel ref d : Nat) :
    (a.varsRequest ref = none →
      fetchVariables a (fuel + 1) ref d = .error .requestFailed) ∧
    (∀ vs v err, a.varsRequest ref = some vs → v ∈ vs →
      0 < v.variables_reference →
      fetchVariables a fuel v.variables_reference (d + 1) = .error err →
      ∃ e, fetchVariables a (fuel + 1) ref d = .error e) := by
  constructor
  · intro h
    rw [fetchVariables, h]
  · intro vs v err hreq hmem hv hchild
    have hchild' : expandChild (fetchVariables a fuel) d v = .error err := by
      unfold expandChild
      rw [if_pos hv]
      exact hchild
    obtain ⟨e, he⟩ := expandWith_error_of_child hmem hchild'
    refine ⟨e, ?_⟩
    rw [fetchVariables, hreq]
    exact he

/-- Witness for C3: a failed initial request errors, and a failed child fetch (the
child's reference has no response) fails the whole fetch. -/
theorem fetch_variables_all_or_nothing_witness :
    fetchVariables
        { stackTrace := fun _ => none, scopes := fun _ => none,
          varsRequest := fun _ => none } 1 1 1 = .error .requestFailed ∧
    ∃ e, fetchVariables
        { stackTrace := fun _ => none, scopes := fun _ => none,
          varsRequest := fun r => if r = 1 then some [⟨"a", "x", 2⟩] else none }
        2 1 1 = .error e :=
  ⟨(fetch_variables_all_or_nothing
      { stackTrace := fun _ => none, scopes := fun _ => none,
        varsRequest := fun _ => none } 0 1 1).1 rfl,
    (fetch_variables_all_or_nothing
      { stackTrace := fun _ => none, scopes := fun _ => none,
        varsRequest := fun r => if r = 1 then some [⟨"a", "x", 2⟩] else none } 1 1 1).2
      [⟨"a", "x", 2⟩] ⟨"a", "x", 2⟩ .requestFailed rfl (by simp) (by decide) rfl⟩

/-- C7: the handler for a Terminated event clears the session's highlights first in
both cases; with restart arguments present it issues `disconnect` with the restart
flag set and then, once the disconnect succeeds, re-issues `launch` or `attach` (by the
session's configured request kind) with the restart arguments, and never requests
adapter teardown; without restart arguments it requests teardown of the adapter
connection. -/
theorem terminated_event_restart_or_teardown (clearOk disconnectOk : Bool)
    (requestType : DebugRequestType) (event : Option TerminatedEvent) :
    (handleTerminatedEvent clearOk disconnectOk requestType event).head? =
      some DapAction.clearAllHighlights ∧
    (∀ args, event.bind TerminatedEvent.restart = some args →
      DapAction.teardown ∉ handleTerminatedEvent clearOk disconnectOk requestType event ∧
      (clearOk = true → disconnectOk = true →
        handleTerminatedEvent clearOk disconnectOk requestType event =
          [DapAction.clearAllHighlights, DapAction.disconnect (some true),
            match requestType with
            | .Launch => DapAction.launch (some args)
            | .Attach => DapAction.attach (some args)])) ∧
    (event.bind TerminatedEvent.restart = none → clearOk = true →
      handleTerminatedEvent clearOk disconnectOk requestType event =
        [DapAction.clearAllHighlights, DapAction.teardown]) := by
  refine ⟨rfl, ?_, ?_⟩
  · intro args hargs
    constructor
    · simp only [handleTerminatedEvent, hargs]
      cases clearOk with
      | false => simp
      | true =>
        cases disconnectOk with
        | false => simp
        | true => cases requestType <;> simp
    · intro hclear hdisc
      subst hclear
      subst hdisc
      cases requestType <;> simp [handleTerminatedEvent, hargs]
  · intro hnone hclear
    subst hclear
    simp [handleTerminatedEvent, hnone]

/-- Witness for C7: with restart args `1` and a Launch session every step succeeds and
the trace is clear-highlights, disconnect(restart), launch(restart args) — without a
teardown; with no restart args the trace is clear-highlights then teardown. -/
theorem terminated_event_restart_or_teardown_witness :
    DapAction.teardown ∉
      handleTerminatedEvent true true DebugRequestType.Launch (some ⟨some (.num 1)⟩) ∧
    handleTerminatedEvent true true DebugRequestType.Launch (some ⟨some (.num 1)⟩) =
      [DapAction.clearAllHighlights, DapAction.disconnect (some true),
        DapAction.launch (some (.num 1))] ∧
    handleTerminatedEvent true true DebugRequestType.Launch (some ⟨none⟩) =
      [DapAction.clearAllHighlights, DapAction.teardown] := by
  refine ⟨?_, ?_, ?_⟩
  · exact (((terminated_event_restart_or_teardown true true DebugRequestType.Launch
      (some ⟨some (.num 1)⟩)).2.1) (.num 1) rfl).1
  · exact (((terminated_event_restart_or_teardown true true DebugRequestType.Launch
      (some ⟨some (.num 1)⟩)).2.1) (.num 1) rfl).2 rfl rfl
  · exact ((terminated_event_restart_or_teardown true true DebugRequestType.Launch
      (some ⟨none⟩)).2.2) rfl rfl

/-- Spec-side description of one key of the merged start-debugging configuration, from
the spec sentence "new values win on key conflict, deep-merge for nested objects": a
key bound by the request configuration wins, deep-merged with the parent's binding when
the parent also has one; otherwise the parent's binding is used. -/
def specMergedLookup (k : String) (src tgt : List (String × Json)) : Option Json :=
  match assocGet k src with
  | some v =>
    some
      (match assocGet k tgt with
        | some old => mergeJsonValueInto v old
        | none => v)
  | none => assocGet k tgt

theorem mergeJsonFields_of_disjoint :
    ∀ (src tgt : List (String × Json)), (src.map Prod.fst).Nodup →
      (∀ k ∈ src.map Prod.fst, assocGet k tgt = none) →
      mergeJsonFields src tgt = tgt ++ src := by
  intro src
  induction src with
  | nil => intro tgt _ _; simp [mergeJsonFields]
  | cons p rest ih =>
    obtain ⟨k, v⟩ := p
    intro tgt hnodup habs
    simp only [List.map_cons, List.nodup_cons] at hnodup
    have hktgt : assocGet k tgt = none := habs k (by simp)
    have habs' : ∀ k2 ∈ rest.map Prod.fst, assocGet k2 (tgt ++ [(k, v)]) = none := by
      intro k2 hk2
      rw [assocGet_append, habs k2 (by simp [hk2])]
      have hne : ¬ k = k2 := fun h => hnodup.1 (h ▸ hk2)
      simp [hne]
    simp only [mergeJsonFields, hktgt]
    rw [ih (tgt ++ [(k, v)]) hnodup.2 habs']
    simp

theorem mergeJsonFields_lookup :
    ∀ (src tgt : List (String × Json)), (src.map Prod.fst).Nodup →
      ∀ k, assocGet k (mergeJsonFields src tgt) = specMergedLookup k src tgt := by
  intro src
  induction src with
  | nil => intro tgt _ k; simp [mergeJsonFields, specMergedLookup]
  | cons p rest ih =>
    obtain ⟨k', v'⟩ := p
    intro tgt hnodup k
    simp only [List.map_cons, List.nodup_cons] at hnodup
    obtain ⟨hknotin, hnodup'⟩ := hnodup
    by_cases hk : k' = k
    · subst hk
      have hrestnone : assocGet k' rest = none := assocGet_eq_none_of_not_mem hknotin
      cases htgt : assocGet k' tgt with
      | some old =>
        simp only [mergeJsonFields, htgt]
        rw [ih _ hnodup' k']
        simp [specMergedLookup, hrestnone, assocGet_insert_self, htgt]
      | none =>
        simp only [mergeJsonFields, htgt]
        rw [ih _ hnodup' k']
        simp only [specMergedLookup, hrestnone, assocGet_append, htgt]
        simp
    · cases htgt : assocGet k' tgt with
      | some old =>
        simp only [mergeJsonFields, htgt]
        rw [ih _ hnodup' k]
        simp only [specMergedLookup, assocGet_insert_ne hk, assocGet_cons, if_neg hk]
      | none =>
        simp only [mergeJsonFields, htgt]
        rw [ih _ hnodup' k]
        simp only [specMergedLookup, assocGet_append, assocGet_cons, if_neg hk]
        cases assocGet k tgt <;> cases hrest : assocGet k rest <;> simp

/-- C9: the reverse startDebugging handler starts the child session with the parent's
command, args and working directory, and with the configuration obtained by
deep-merging the request's configuration over the parent's stored request arguments —
the request's values winning on key conflict, nested objects merged recursively; on the
spec's example, parent `{a:1, b:{x:1}}` merged with request `{b:{y:2}, c:3}` yields
`{a:1, b:{x:1,y:2}, c:3}`. -/
theorem start_debugging_merges_config (client : ClientModel)
    (request : StartDebuggingRequestArguments) (pf rf : List (String × Json))
    (hargs : client.config.request_args = some (.obj pf))
    (hconf : request.configuration = .obj rf)
    (hpn : (pf.map Prod.fst).Nodup) (hrn : (rf.map Prod.fst).Nodup) :
    (handleStartDebuggingRequest client request).command = client.command ∧
    (handleStartDebuggingRequest client request).args = client.args ∧
    (handleStartDebuggingRequest client request).cwd = client.cwd ∧
    (handleStartDebuggingRequest client request).mergedArgs =
      .obj (mergeJsonFields rf pf) ∧
    (∀ k, assocGet k (mergeJsonFields rf pf) = specMergedLookup k rf pf) ∧
    handleStartDebuggingRequest
        ⟨"node", ["dap"], "/w",
          ⟨.Launch, some (.obj [("a", .num 1), ("b", .obj [("x", .num 1)])])⟩⟩
        ⟨.obj [("b", .obj [("y", .num 2)]), ("c", .num 3)]⟩ =
      ⟨"node", ["dap"], "/w",
        .obj [("a", .num 1), ("b", .obj [("x", .num 1), ("y", .num 2)]),
          ("c", .num 3)]⟩ := by
  have hinner : mergeJsonValueInto (.obj pf) (.obj []) = .obj pf := by
    rw [mergeJsonValueInto]
    rw [mergeJsonFields_of_disjoint pf [] hpn (by intro k _; rfl)]
    rfl
  refine ⟨rfl, rfl, rfl, ?_, mergeJsonFields_lookup rf pf hrn, rfl⟩
  simp only [handleStartDebuggingRequest, hargs, hconf, hinner]
  rw [mergeJsonValueInto]

/-- Witness for C9 at the spec's example configurations. -/
theorem start_debugging_merges_config_witness :
    (handleStartDebuggingRequest
        ⟨"node", ["dap"], "/w",
          ⟨.Launch, some (.obj [("a", .num 1), ("b", .obj [("x", .num 1)])])⟩⟩
        ⟨.obj [("b", .obj [("y", .num 2)]), ("c", .num 3)]⟩).mergedArgs =
      .obj (mergeJsonFields [("b", .obj [("y", .num 2)]), ("c", .num 3)]
        [("a", .num 1), ("b", .obj [("x", .num 1)])]) ∧
    (∀ k, assocGet k (mergeJsonFields [("b", .obj [("y", .num 2)]), ("c", .num 3)]
        [("a", .num 1), ("b", .obj [("x", .num 1)])]) =
      specMergedLookup k [("b", .obj [("y", .num 2)]), ("c", .num 3)]
        [("a", .num 1), ("b", .obj [("x", .num 1)])]) ∧
    handleStartDebuggingRequest
        ⟨"node", ["dap"], "/w",
          ⟨.Launch, some (.obj [("a", .num 1), ("b", .obj [("x", .num 1)])])⟩⟩
        ⟨.obj [("b", .obj [("y", .num 2)]), ("c", .num 3)]⟩ =
      ⟨"node", ["dap"], "/w",
        .obj [("a", .num 1), ("b", .obj [("x", .num 1), ("y", .num 2)]),
          ("c", .num 3)]⟩ := by
  have h := start_debugging_merges_config
    ⟨"node", ["dap"], "/w",
      ⟨.Launch, some (.obj [("a", .num 1), ("b", .obj [("x", .num 1)])])⟩⟩
    ⟨.obj [("b", .obj [("y", .num 2)]), ("c", .num 3)]⟩
    [("a", .num 1), ("b", .obj [("x", .num 1)])]
    [("b", .obj [("y", .num 2)]), ("c", .num 3)]
    rfl rfl (by simp) (by simp)
  exact ⟨h.2.2.2.1, h.2.2.2.2.1, h.2.2.2.2.2⟩

end ZedDebugger
